import Mathlib

/-!
Verification of the `RecordSet` record-set model of this DNS repository
(`src/client/src/rr/rr_set.rs`): construction, RFC 2136 insert/remove
semantics, serial tracking, and DNSSEC signature selection.

The supporting `Record`/`RData` data model is declared outside the staged
sources; those definitions are modelled from the spec (section 3 and 6) and
carry a `Modelled from the spec` note.  Everything in the `RecordSet`
namespace is translated directly from `rr_set.rs`.  Rust panics
(`assert!`, `panic!`, indexing out of bounds, `expect`) are modelled by
`Option`: `none` is a panic, `some` a normal return.
-/

/-- Modelled from the spec: domain names are opaque labels compared for
equality only (`Name` lives outside the staged sources); we represent them
by naturals. -/
abbrev Name := Nat

/-- Modelled from the spec: the RR types this core distinguishes (section 6
requires at least A, NS, CNAME, SOA, SIG/RRSIG and a catch-all; `ANY` is
the wildcard accepted by `remove`). -/
inductive RecordType
  | A
  | ANY
  | CNAME
  | NS
  | NULL
  | RRSIG
  | SOA
deriving DecidableEq

/-- Modelled from the spec: DNS classes; only `IN` is used by this core. -/
inductive DNSClass
  | IN
  | CH
  | ANY
deriving DecidableEq

/-- Modelled from the spec: the rank-comparable DNSSEC algorithm
enumeration (listed in increasing rank). -/
inductive Algorithm
  | RSASHA1
  | RSASHA256
  | RSASHA1NSEC3SHA1
  | RSASHA512
  | ECDSAP256SHA256
  | ECDSAP384SHA384
  | ED25519
deriving DecidableEq

/-- Modelled from the spec: the total rank order on algorithms used by the
signature max-selection (ties between distinct algorithms cannot arise:
rank is injective on this enumeration). -/
def Algorithm.rank : Algorithm → Nat
  | .RSASHA1 => 0
  | .RSASHA256 => 1
  | .RSASHA1NSEC3SHA1 => 2
  | .RSASHA512 => 3
  | .ECDSAP256SHA256 => 4
  | .ECDSAP384SHA384 => 5
  | .ED25519 => 6

/-- Modelled from the spec: the caller-specified set of supported signature
algorithms, with a membership test `has`. -/
abbrev SupportedAlgorithms := List Algorithm

/-- Modelled from the spec: membership in the supported-algorithms set. -/
def SupportedAlgorithms.has (s : SupportedAlgorithms) (a : Algorithm) : Bool :=
  s.contains a

/-- Modelled from the spec: the SOA rdata payload; `serial` is the
serial-number field insert compares for SOA sets. -/
structure SOA where
  mname : Name
  rname : Name
  serial : Nat
  refresh : Nat
  retry : Nat
  expire : Nat
  minimum : Nat
deriving DecidableEq

/-- Modelled from the spec: the SIG rdata payload with its `algorithm`
field used by signature filtering and max-selection. -/
structure SIG where
  type_covered : RecordType
  algorithm : Algorithm
  num_labels : Nat
  original_ttl : Nat
  sig_expiration : Nat
  sig_inception : Nat
  key_tag : Nat
  signer_name : Name
  sig : List Nat
deriving DecidableEq

/-- Modelled from the spec: the rdata tagged union (A, CNAME, NS, SOA,
SIG, and a generic catch-all `NULL`). -/
inductive RData
  | A (address : Nat)
  | CNAME (name : Name)
  | NS (name : Name)
  | NULL (anything : List Nat)
  | SIG (sig : SIG)
  | SOA (soa : SOA)
deriving DecidableEq

/-- Modelled from the spec: the record type implied by an rdata value. -/
def RData.to_record_type : RData → RecordType
  | .A _ => RecordType.A
  | .CNAME _ => RecordType.CNAME
  | .NS _ => RecordType.NS
  | .NULL _ => RecordType.NULL
  | .SIG _ => RecordType.RRSIG
  | .SOA _ => RecordType.SOA

/-- Modelled from the spec: a resource record; full (structural) equality
compares every field, while insert/remove matching compares only `rdata`. -/
structure Record where
  name : Name
  rr_type : RecordType
  dns_class : DNSClass
  ttl : Nat
  rdata : RData
deriving DecidableEq

/-- Modelled from the spec: `Record::with(name, rr_type, ttl)` builds a
record with class `IN` and an empty rdata placeholder (the caller sets the
rdata afterwards). -/
def Record.with (name : Name) (rr_type : RecordType) (ttl : Nat) : Record :=
  { name := name, rr_type := rr_type, dns_class := DNSClass.IN, ttl := ttl,
    rdata := RData.NULL [] }

/-- `RecordSet` from `rr_set.rs`: the records sharing one (name, type)
pair, their signatures, and the serial at which the set was last
modified. -/
structure RecordSet where
  name : Name
  record_type : RecordType
  dns_class : DNSClass
  ttl : Nat
  records : List Record
  rrsigs : List Record
  serial : Nat
deriving DecidableEq

/-- `RecordSet::new`: empty set, class `IN`, ttl 0, given serial. -/
def RecordSet.new (name : Name) (record_type : RecordType) (serial : Nat) :
    RecordSet :=
  { name := name, record_type := record_type, dns_class := DNSClass.IN,
    ttl := 0, records := [], rrsigs := [], serial := serial }

/-- `RecordSet::with_ttl`: empty set, class `IN`, serial 0, given ttl. -/
def RecordSet.with_ttl (name : Name) (record_type : RecordType) (ttl : Nat) :
    RecordSet :=
  { name := name, record_type := record_type, dns_class := DNSClass.IN,
    ttl := ttl, records := [], rrsigs := [], serial := 0 }

/-- `RecordSet::from` (named `from_record` here since `from` is reserved
in Lean): singleton set seeded from one record. -/
def RecordSet.from_record (record : Record) : RecordSet :=
  { name := record.name, record_type := record.rr_type,
    dns_class := record.dns_class, ttl := record.ttl, records := [record],
    rrsigs := [], serial := 0 }

/-- `RecordSet::updated`: on updates the serial is recorded and the rrsigs
are invalid. -/
def RecordSet.updated (s : RecordSet) (serial : Nat) : RecordSet :=
  { s with serial := serial, rrsigs := [] }

/-- The index list `to_replace`/`to_remove` of `insert`/`remove`: indexes
(from `i` up) of the records whose rdata equals `d`, as collected by the
enumerate-filter-map pass over `records`. -/
def matchIdxs (d : RData) : List Record → Nat → List Nat
  | [], _ => []
  | r :: rs, i =>
    if r.rdata = d then i :: matchIdxs d rs (i + 1) else matchIdxs d rs (i + 1)

/-- The `for i in to_replace` loop of `insert`, followed by the
`if !replaced` tail.  Each iteration reads `records[i]` (a panic — `none` —
if out of bounds), early-returns `false` on full equality, and otherwise
replaces index `i` via push + `swap_remove(i)` (for `i` in bounds this sets
position `i` to `record`), updating ttl, serial and rrsigs. -/
def insertLoop (record : Record) (serial : Nat) :
    List Nat → RecordSet → Bool → Option (RecordSet × Bool)
  | [], s, replaced =>
    if replaced then some (s, replaced)
    else
      some ({ s.updated serial with
                records := s.records ++ [record],
                ttl := record.ttl }, true)
  | i :: rest, s, _ =>
    match s.records[i]? with
    | none => none
    | some r =>
      if r = record then some (s, false)
      else
        insertLoop record serial rest
          { s.updated serial with
              records := s.records.set i record,
              ttl := record.ttl } true

/-- The data-match/replace-or-append body of `insert` (everything after
the SOA/CNAME pre-step). -/
def insertBody (s : RecordSet) (record : Record) (serial : Nat) :
    Option (RecordSet × Bool) :=
  insertLoop record serial (matchIdxs record.rdata s.records 0) s false

/-- `RecordSet::insert` from `rr_set.rs`.  The two `assert_eq!` guards and
the `panic!` on a corrupted SOA slot are modelled by `none`; the SOA branch
rejects stale or malformed SOA updates with `some (s, false)` before
clearing, the CNAME branch clears unconditionally, and control then falls
through to `insertBody`. -/
def RecordSet.insert (s : RecordSet) (record : Record) (serial : Nat) :
    Option (RecordSet × Bool) :=
  if record.name = s.name ∧ record.rr_type = s.record_type then
    match record.rr_type with
    | RecordType.SOA =>
      if s.records.length ≤ 1 then
        match s.records.head? with
        | some soa_record =>
          match soa_record.rdata with
          | RData.SOA existing_soa =>
            match record.rdata with
            | RData.SOA new_soa =>
              if new_soa.serial ≤ existing_soa.serial then some (s, false)
              else insertBody { s with records := [] } record serial
            | _ => some (s, false)
          | _ => none
        | none => insertBody { s with records := [] } record serial
      else none
    | RecordType.CNAME =>
      if s.records.length ≤ 1 then
        insertBody { s with records := [] } record serial
      else none
    | _ => insertBody s record serial
  else none

/-- The `for i in to_remove` loop of `remove`: `Vec::remove(i)` panics
(`none`) when `i` is out of bounds, otherwise deletes index `i` and marks
the set updated. -/
def removeLoop (serial : Nat) :
    List Nat → RecordSet → Bool → Option (RecordSet × Bool)
  | [], s, removed => some (s, removed)
  | i :: rest, s, _ =>
    if i < s.records.length then
      removeLoop serial rest
        { (s.updated serial) with records := s.records.eraseIdx i } true
    else none

/-- The collect-and-delete body of `remove` (everything after the NS/SOA
guards). -/
def removeBody (s : RecordSet) (record : Record) (serial : Nat) :
    Option (RecordSet × Bool) :=
  removeLoop serial (matchIdxs record.rdata s.records 0) s false

/-- `RecordSet::remove` from `rr_set.rs`: the name/type asserts are
modelled by `none`; an NS-typed argument is refused when at most one record
remains, an SOA-typed argument is always refused, and anything else falls
through to `removeBody`. -/
def RecordSet.remove (s : RecordSet) (record : Record) (serial : Nat) :
    Option (RecordSet × Bool) :=
  if record.name = s.name ∧
      (record.rr_type = s.record_type ∨ record.rr_type = RecordType.ANY) then
    match record.rr_type with
    | RecordType.NS =>
      if s.records.length ≤ 1 then some (s, false)
      else removeBody s record serial
    | RecordType.SOA => some (s, false)
    | _ => removeBody s record serial
  else none

/-- The filter predicate of `get_records`: an rrsig is kept when its rdata
is a SIG whose algorithm is supported. -/
def supportedSig (supported_algorithms : SupportedAlgorithms) (r : Record) :
    Bool :=
  match r.rdata with
  | RData.SIG sig => supported_algorithms.has sig.algorithm
  | _ => false

/-- The `max_by_key` key of `get_records`: the SIG algorithm, with
`RSASHA1` as the default for non-SIG rdata. -/
def sigKey (r : Record) : Algorithm :=
  match r.rdata with
  | RData.SIG sig => sig.algorithm
  | _ => Algorithm.RSASHA1

/-- Accumulator pass of `Iterator::max_by_key` (the last of several
equally-maximal elements wins, as in Rust). -/
def maxByKeyGo (key : Record → Algorithm) (acc : Record) :
    List Record → Record
  | [] => acc
  | x :: xs =>
    maxByKeyGo key (if (key acc).rank ≤ (key x).rank then x else acc) xs

/-- `Iterator::max_by_key` over a list of records. -/
def max_by_key (key : Record → Algorithm) : List Record → Option Record
  | [] => none
  | x :: xs => some (maxByKeyGo key x xs)

/-- `RecordSet::get_records` from `rr_set.rs`: the stored records, plus —
when `and_rrsigs` is set — at most one rrsig: the supported-algorithm
rrsig of maximal algorithm rank. -/
def RecordSet.get_records (s : RecordSet) (and_rrsigs : Bool)
    (supported_algorithms : SupportedAlgorithms) : List Record :=
  if and_rrsigs then
    let rrsigs :=
      max_by_key sigKey (s.rrsigs.filter (supportedSig supported_algorithms))
    s.records ++ rrsigs.toList
  else s.records

/-- `RecordSet::new_record` from `rr_set.rs`: the `assert_eq!` on the
rdata's implied type and the final `.expect` are modelled by `none`; the
built record is inserted with serial 0 and the stored record with matching
rdata is returned. -/
def RecordSet.new_record (s : RecordSet) (rdata : RData) :
    Option (RecordSet × Record) :=
  if s.record_type = rdata.to_record_type then
    match s.insert
        { Record.with s.name s.record_type s.ttl with rdata := rdata } 0 with
    | none => none
    | some (s', _) =>
      match s'.records.find? (fun r => r.rdata == rdata) with
      | none => none
      | some r => some (s', r)
  else none

/-- The data-level uniqueness invariant of the spec (section 3): no two
stored records have equal rdata. -/
def uniqueRdata (rs : List Record) : Prop :=
  rs.Pairwise (fun a b => a.rdata ≠ b.rdata)

/-- States produced from a fresh `RecordSet` by sequences of (panic-free)
`insert` and `remove` calls. -/
inductive Reachable : RecordSet → Prop
  | new : ∀ (name : Name) (record_type : RecordType) (serial : Nat),
      Reachable (RecordSet.new name record_type serial)
  | with_ttl : ∀ (name : Name) (record_type : RecordType) (ttl : Nat),
      Reachable (RecordSet.with_ttl name record_type ttl)
  | from_record : ∀ (record : Record), Reachable (RecordSet.from_record record)
  | insert : ∀ (s : RecordSet) (record : Record) (serial : Nat)
      (s' : RecordSet) (b : Bool), Reachable s →
      s.insert record serial = some (s', b) → Reachable s'
  | remove : ∀ (s : RecordSet) (record : Record) (serial : Nat)
      (s' : RecordSet) (b : Bool), Reachable s →
      s.remove record serial = some (s', b) → Reachable s'

/-! ### Concrete sample data (used to instantiate the theorems) -/

/-- A sample A record (www.example.com. 86400 IN A 93.184.216.24 in the
repository's tests). -/
def aRecordA : Record :=
  { name := 1, rr_type := RecordType.A, dns_class := DNSClass.IN,
    ttl := 86400, rdata := RData.A 24 }

/-- A second A record with different rdata. -/
def aRecordB : Record := { aRecordA with rdata := RData.A 25 }

/-- A singleton A record set. -/
def witnessSetA : RecordSet := RecordSet.from_record aRecordA

/-- The state of `witnessSetA` after inserting `aRecordB` at serial 1. -/
def witnessSetAB : RecordSet :=
  { name := 1, record_type := RecordType.A, dns_class := DNSClass.IN,
    ttl := 86400, records := [aRecordA, aRecordB], rrsigs := [],
    serial := 1 }

/-- A sample SOA payload with zone serial 5. -/
def soaOld : SOA :=
  { mname := 100, rname := 101, serial := 5, refresh := 7200, retry := 3600,
    expire := 1209600, minimum := 3600 }

/-- A competing SOA payload with the newer zone serial 6. -/
def soaNew : SOA := { soaOld with mname := 200, serial := 6 }

/-- A stale SOA payload (zone serial 3, different primary name). -/
def soaStale : SOA := { soaOld with mname := 300, serial := 3 }

/-- The stored SOA record. -/
def soaRecOld : Record :=
  { name := 2, rr_type := RecordType.SOA, dns_class := DNSClass.IN,
    ttl := 3600, rdata := RData.SOA soaOld }

/-- The replacement SOA record carrying `soaNew`. -/
def soaRecNew : Record := { soaRecOld with rdata := RData.SOA soaNew }

/-- A singleton SOA set holding `soaRecOld`. -/
def soaSet : RecordSet := RecordSet.from_record soaRecOld

/-- An ANY-typed deletion request whose rdata matches the stored SOA. -/
def anyRecord : Record :=
  { name := 2, rr_type := RecordType.ANY, dns_class := DNSClass.IN,
    ttl := 0, rdata := RData.SOA soaOld }

/-- A sample CNAME record. -/
def cnameRecord : Record :=
  { name := 3, rr_type := RecordType.CNAME, dns_class := DNSClass.IN,
    ttl := 3600, rdata := RData.CNAME 7 }

/-- A CNAME record for the same name with different target rdata. -/
def cnameRecord2 : Record := { cnameRecord with rdata := RData.CNAME 8 }

/-- A singleton CNAME set. -/
def cnameSet : RecordSet := RecordSet.from_record cnameRecord

/-- Two NS records over one name. -/
def nsRecord1 : Record :=
  { name := 4, rr_type := RecordType.NS, dns_class := DNSClass.IN,
    ttl := 86400, rdata := RData.NS 11 }

/-- The second NS record. -/
def nsRecord2 : Record := { nsRecord1 with rdata := RData.NS 12 }

/-- An NS set holding both NS records. -/
def nsSet2 : RecordSet :=
  { name := 4, record_type := RecordType.NS, dns_class := DNSClass.IN,
    ttl := 86400, records := [nsRecord1, nsRecord2], rrsigs := [],
    serial := 0 }

/-- A SIG rdata payload for the given algorithm. -/
def sigPayload (a : Algorithm) : SIG :=
  { type_covered := RecordType.A, algorithm := a, num_labels := 0,
    original_ttl := 0, sig_expiration := 0, sig_inception := 0,
    key_tag := 0, signer_name := 0, sig := [] }

/-- An rrsig record for the given algorithm. -/
def sigRecord (a : Algorithm) : Record :=
  { name := 1, rr_type := RecordType.RRSIG, dns_class := DNSClass.IN,
    ttl := 3600, rdata := RData.SIG (sigPayload a) }

/-- An A set carrying rrsigs for two algorithms of distinct rank. -/
def signedSet : RecordSet :=
  { witnessSetA with
      rrsigs := [sigRecord Algorithm.RSASHA256,
        sigRecord Algorithm.ECDSAP384SHA384] }

/-! ### Helper lemmas about the index-collection pass -/

/-- When no stored record matches the rdata, the collected index list is
empty. -/
theorem matchIdxs_eq_nil (d : RData) (rs : List Record) (k : Nat)
    (h : ∀ r ∈ rs, r.rdata ≠ d) : matchIdxs d rs k = [] := by
  induction rs generalizing k with
  | nil => rfl
  | cons r rs ih =>
    simp only [matchIdxs, if_neg (h r (List.mem_cons_self r rs))]
    exact ih (k + 1) (fun x hx => h x (List.mem_cons_of_mem r hx))

/-- When exactly one stored record matches the rdata, the collected index
list is that record's position. -/
theorem matchIdxs_split (d : RData) (l₁ : List Record) (r' : Record)
    (l₂ : List Record) (k : Nat) (h1 : ∀ r ∈ l₁, r.rdata ≠ d)
    (h2 : r'.rdata = d) (h3 : ∀ r ∈ l₂, r.rdata ≠ d) :
    matchIdxs d (l₁ ++ r' :: l₂) k = [k + l₁.length] := by
  induction l₁ generalizing k with
  | nil =>
    simp only [List.nil_append, matchIdxs, if_pos h2, List.length_nil,
      Nat.add_zero]
    rw [matchIdxs_eq_nil d l₂ (k + 1) h3]
  | cons a l₁ ih =>
    have hstep : matchIdxs d ((a :: l₁) ++ r' :: l₂) k =
        matchIdxs d (l₁ ++ r' :: l₂) (k + 1) := by
      simp only [List.cons_append, matchIdxs,
        if_neg (h1 a (List.mem_cons_self a l₁)), List.append_eq]
    rw [hstep, ih (k + 1) (fun x hx => h1 x (List.mem_cons_of_mem a hx))]
    simp only [List.length_cons, List.cons.injEq, and_true]
    omega

/-- Under the uniqueness invariant, a stored list either has no record
with the given rdata or splits around a single one. -/
theorem pairwise_rdata_split (rs : List Record) (d : RData)
    (h : uniqueRdata rs) :
    (∀ r ∈ rs, r.rdata ≠ d) ∨
      ∃ l₁ r' l₂, rs = l₁ ++ r' :: l₂ ∧ r'.rdata = d ∧
        (∀ r ∈ l₁, r.rdata ≠ d) ∧ (∀ r ∈ l₂, r.rdata ≠ d) := by
  induction rs with
  | nil => exact Or.inl (by simp)
  | cons a rs ih =>
    rcases List.pairwise_cons.mp h with ⟨ha, hrs⟩
    by_cases had : a.rdata = d
    · refine Or.inr ⟨[], a, rs, by simp, had, by simp, fun r hr => ?_⟩
      intro hrd
      exact ha r hr (had.trans hrd.symm)
    · rcases ih hrs with hno | ⟨l₁, r', l₂, hsplit, hd, h1, h2⟩
      · refine Or.inl ?_
        intro r hr
        rcases List.mem_cons.mp hr with rfl | hr
        · exact had
        · exact hno r hr
      · exact Or.inr ⟨a :: l₁, r', l₂, by rw [hsplit]; rfl, hd,
          fun r hr => by
            rcases List.mem_cons.mp hr with rfl | hr
            · exact had
            · exact h1 r hr,
          h2⟩

/-- Indexing at the split point. -/
theorem getElem?_append_cons (l₁ : List Record) (r' : Record)
    (l₂ : List Record) : (l₁ ++ r' :: l₂)[l₁.length]? = some r' := by
  induction l₁ with
  | nil => simp
  | cons a l₁ ih => simpa using ih

/-- Setting at the split point. -/
theorem set_append_cons (l₁ : List Record) (r' : Record) (l₂ : List Record)
    (x : Record) : (l₁ ++ r' :: l₂).set l₁.length x = l₁ ++ x :: l₂ := by
  induction l₁ with
  | nil => rfl
  | cons a l₁ ih => simp [ih]

/-- Erasing at the split point. -/
theorem eraseIdx_append_cons (l₁ : List Record) (r' : Record)
    (l₂ : List Record) : (l₁ ++ r' :: l₂).eraseIdx l₁.length = l₁ ++ l₂ := by
  induction l₁ with
  | nil => rfl
  | cons a l₁ ih => simpa using ih

/-! ### Characterizations of the insert body -/

/-- No stored record matches the new rdata: the record is appended, the
ttl taken over, the set marked updated, and `true` returned. -/
theorem insertBody_no_match (s : RecordSet) (record : Record) (serial : Nat)
    (h : ∀ r ∈ s.records, r.rdata ≠ record.rdata) :
    insertBody s record serial =
      some ({ s with
                records := s.records ++ [record],
                ttl := record.ttl,
                rrsigs := [],
                serial := serial }, true) := by
  unfold insertBody
  rw [matchIdxs_eq_nil record.rdata s.records 0 h]
  rfl

/-- The single rdata match is fully equal to the new record: the insert
is a no-op returning `false`. -/
theorem insertBody_dup (s : RecordSet) (record : Record) (serial : Nat)
    (l₁ l₂ : List Record) (hs : s.records = l₁ ++ record :: l₂)
    (h1 : ∀ r ∈ l₁, r.rdata ≠ record.rdata)
    (h3 : ∀ r ∈ l₂, r.rdata ≠ record.rdata) :
    insertBody s record serial = some (s, false) := by
  unfold insertBody
  rw [hs, matchIdxs_split record.rdata l₁ record l₂ 0 h1 rfl h3,
    Nat.zero_add]
  unfold insertLoop
  rw [hs, getElem?_append_cons]
  simp

/-- The single rdata match differs from the new record in some field: it
is replaced in place, the ttl taken over, the set marked updated, and
`true` returned. -/
theorem insertBody_replace (s : RecordSet) (record : Record) (serial : Nat)
    (l₁ : List Record) (r' : Record) (l₂ : List Record)
    (hs : s.records = l₁ ++ r' :: l₂) (hd : r'.rdata = record.rdata)
    (hne : r' ≠ record) (h1 : ∀ r ∈ l₁, r.rdata ≠ record.rdata)
    (h3 : ∀ r ∈ l₂, r.rdata ≠ record.rdata) :
    insertBody s record serial =
      some ({ s with
                records := l₁ ++ record :: l₂,
                ttl := record.ttl,
                rrsigs := [],
                serial := serial }, true) := by
  unfold insertBody
  rw [hs, matchIdxs_split record.rdata l₁ r' l₂ 0 h1 hd h3, Nat.zero_add]
  unfold insertLoop
  rw [hs, getElem?_append_cons]
  simp only [if_neg hne]
  rw [set_append_cons]
  simp [insertLoop, RecordSet.updated]

/-! ### Characterizations of the remove loop and body -/

/-- A successful remove-loop run only deletes stored records. -/
theorem removeLoop_sublist (serial : Nat) (idxs : List Nat) (s s' : RecordSet)
    (b flag : Bool) (h : removeLoop serial idxs s b = some (s', flag)) :
    s'.records.Sublist s.records := by
  induction idxs generalizing s b with
  | nil =>
    unfold removeLoop at h
    injection h with h
    rw [(Prod.mk.injEq _ _ _ _ |>.mp h).1]
  | cons i rest ih =>
    unfold removeLoop at h
    split at h
    · exact (ih _ _ h).trans (List.eraseIdx_sublist s.records i)
    · exact absurd h (by simp)

/-- The remove loop either never runs (returning its input unchanged) or
leaves a state marked updated at the given serial. -/
theorem removeLoop_cases (serial : Nat) (idxs : List Nat) (s s' : RecordSet)
    (b flag : Bool) (h : removeLoop serial idxs s b = some (s', flag)) :
    (flag = b ∧ s' = s ∧ idxs = []) ∨
      (flag = true ∧ s'.rrsigs = [] ∧ s'.serial = serial) := by
  induction idxs generalizing s b with
  | nil =>
    unfold removeLoop at h
    injection h with h
    have := Prod.mk.injEq _ _ _ _ |>.mp h
    exact Or.inl ⟨this.2.symm, this.1.symm, rfl⟩
  | cons i rest ih =>
    unfold removeLoop at h
    split at h
    · rcases ih _ _ h with ⟨hf, hs', _⟩ | ⟨hf, h1, h2⟩
      · exact Or.inr ⟨hf, by rw [hs']; simp [RecordSet.updated],
          by rw [hs']; simp [RecordSet.updated]⟩
      · exact Or.inr ⟨hf, h1, h2⟩
    · exact absurd h (by simp)

/-- No stored record matches: `remove`'s body returns `false` with the
set untouched. -/
theorem removeBody_no_match (s : RecordSet) (record : Record) (serial : Nat)
    (h : ∀ r ∈ s.records, r.rdata ≠ record.rdata) :
    removeBody s record serial = some (s, false) := by
  unfold removeBody
  rw [matchIdxs_eq_nil record.rdata s.records 0 h]
  rfl

/-- A single stored record matches: it is deleted and the set marked
updated. -/
theorem removeBody_match (s : RecordSet) (record : Record) (serial : Nat)
    (l₁ : List Record) (r' : Record) (l₂ : List Record)
    (hs : s.records = l₁ ++ r' :: l₂) (hd : r'.rdata = record.rdata)
    (h1 : ∀ r ∈ l₁, r.rdata ≠ record.rdata)
    (h3 : ∀ r ∈ l₂, r.rdata ≠ record.rdata) :
    removeBody s record serial =
      some ({ s with
                records := l₁ ++ l₂,
                rrsigs := [],
                serial := serial }, true) := by
  unfold removeBody
  rw [hs, matchIdxs_split record.rdata l₁ r' l₂ 0 h1 hd h3, Nat.zero_add]
  unfold removeLoop
  rw [hs]
  have hlen : l₁.length < (l₁ ++ r' :: l₂).length := by
    simp [List.length_append]
  rw [if_pos hlen, eraseIdx_append_cons]
  rfl

/-! ### Uniqueness bookkeeping -/

/-- Appending a record with fresh rdata preserves uniqueness. -/
theorem uniqueRdata_append_singleton (rs : List Record) (record : Record)
    (h : uniqueRdata rs) (hno : ∀ r ∈ rs, r.rdata ≠ record.rdata) :
    uniqueRdata (rs ++ [record]) := by
  refine List.pairwise_append.mpr ⟨h, List.pairwise_singleton _ _, ?_⟩
  intro a ha b hb
  rw [List.mem_singleton.mp hb]
  exact hno a ha

/-- Replacing a record by one with the same rdata preserves uniqueness. -/
theorem uniqueRdata_replace (l₁ : List Record) (r' : Record)
    (l₂ : List Record) (record : Record)
    (h : uniqueRdata (l₁ ++ r' :: l₂)) (hd : record.rdata = r'.rdata) :
    uniqueRdata (l₁ ++ record :: l₂) := by
  rcases List.pairwise_append.mp h with ⟨hl₁, hmid, hcross⟩
  rcases List.pairwise_cons.mp hmid with ⟨hr', hl₂⟩
  refine List.pairwise_append.mpr ⟨hl₁, List.pairwise_cons.mpr ⟨?_, hl₂⟩, ?_⟩
  · intro b hb
    rw [hd]
    exact hr' b hb
  · intro a ha b hb
    rcases List.mem_cons.mp hb with rfl | hb
    · rw [hd]
      exact hcross a ha r' (List.mem_cons_self r' l₂)
    · exact hcross a ha b (List.mem_cons_of_mem r' hb)

/-- A member of a uniqueness-respecting list splits it with no other
rdata match on either side. -/
theorem unique_mem_split (rs : List Record) (record : Record)
    (h : uniqueRdata rs) (hm : record ∈ rs) :
    ∃ l₁ l₂, rs = l₁ ++ record :: l₂ ∧
      (∀ r ∈ l₁, r.rdata ≠ record.rdata) ∧
      (∀ r ∈ l₂, r.rdata ≠ record.rdata) := by
  rcases List.append_of_mem hm with ⟨l₁, l₂, rfl⟩
  rcases List.pairwise_append.mp h with ⟨_, hmid, hcross⟩
  rcases List.pairwise_cons.mp hmid with ⟨hrec, _⟩
  exact ⟨l₁, l₂, rfl,
    fun r hr => hcross r hr record (List.mem_cons_self record l₂),
    fun r hr => (hrec r hr).symm⟩

/-! ### Case analyses of the full operations -/

/-- Under the uniqueness invariant, `insert`'s body either succeeds
(marking the set updated and keeping uniqueness) or is a strict no-op
returning `false`. -/
theorem insertBody_cases (s : RecordSet) (record : Record) (serial : Nat)
    (hu : uniqueRdata s.records) (s' : RecordSet) (b : Bool)
    (h : insertBody s record serial = some (s', b)) :
    (b = true ∧ s'.rrsigs = [] ∧ s'.serial = serial ∧
      uniqueRdata s'.records) ∨ (b = false ∧ s' = s) := by
  rcases pairwise_rdata_split s.records record.rdata hu with
    hno | ⟨l₁, r', l₂, hs, hd, h1, h3⟩
  · rw [insertBody_no_match s record serial hno] at h
    injection h with h
    have hp := Prod.mk.injEq _ _ _ _ |>.mp h
    refine Or.inl ⟨hp.2.symm, ?_, ?_, ?_⟩ <;> rw [← hp.1]
    · exact uniqueRdata_append_singleton s.records record hu hno
  · by_cases hrr : r' = record
    · rw [hrr] at hs
      rw [insertBody_dup s record serial l₁ l₂ hs h1 h3] at h
      injection h with h
      have hp := Prod.mk.injEq _ _ _ _ |>.mp h
      exact Or.inr ⟨hp.2.symm, hp.1.symm⟩
    · rw [insertBody_replace s record serial l₁ r' l₂ hs hd hrr h1 h3] at h
      injection h with h
      have hp := Prod.mk.injEq _ _ _ _ |>.mp h
      refine Or.inl ⟨hp.2.symm, ?_, ?_, ?_⟩ <;> rw [← hp.1]
      · exact uniqueRdata_replace l₁ r' l₂ record (hs ▸ hu) hd.symm

/-- `insert`'s body on a freshly cleared record list (the SOA/CNAME
replacement path): always appends and reports `true`. -/
theorem insertBody_cleared (s : RecordSet) (record : Record) (serial : Nat)
    (hrec : s.records = []) (s' : RecordSet) (b : Bool)
    (h : insertBody s record serial = some (s', b)) :
    b = true ∧ s'.rrsigs = [] ∧ s'.serial = serial ∧
      uniqueRdata s'.records := by
  rw [insertBody_no_match s record serial (by rw [hrec]; simp)] at h
  injection h with h
  have hp := Prod.mk.injEq _ _ _ _ |>.mp h
  refine ⟨hp.2.symm, ?_, ?_, ?_⟩ <;> rw [← hp.1]
  show uniqueRdata (s.records ++ [record])
  rw [hrec]
  exact List.pairwise_singleton _ _

/-- Branch analysis of the full `insert` under the uniqueness invariant:
a `true` result marks the set updated and keeps uniqueness, a `false`
result changes nothing. -/
theorem insert_cases (s : RecordSet) (record : Record) (serial : Nat)
    (hu : uniqueRdata s.records) (s' : RecordSet) (b : Bool)
    (h : s.insert record serial = some (s', b)) :
    (b = true ∧ s'.rrsigs = [] ∧ s'.serial = serial ∧
      uniqueRdata s'.records) ∨ (b = false ∧ s' = s) := by
  unfold RecordSet.insert at h
  split at h
  · split at h
    · -- the SOA replacement policy
      split at h
      · split at h
        · -- an SOA record is stored
          split at h
          · -- its rdata is SOA-typed
            split at h
            · -- the update's rdata is SOA-typed
              split at h
              · -- stale serial: rejected unchanged
                injection h with h
                have hp := Prod.mk.injEq _ _ _ _ |>.mp h
                exact Or.inr ⟨hp.2.symm, hp.1.symm⟩
              · -- strictly newer serial: replaced wholesale
                exact Or.inl (insertBody_cleared _ record serial rfl s' b h)
            · -- malformed update rdata: rejected unchanged
              injection h with h
              have hp := Prod.mk.injEq _ _ _ _ |>.mp h
              exact Or.inr ⟨hp.2.symm, hp.1.symm⟩
          · -- corrupted stored rdata: a panic, no result
            exact absurd h (by simp)
        · -- empty SOA set: the new record is appended
          exact Or.inl (insertBody_cleared _ record serial rfl s' b h)
      · -- singleton assert fails: a panic, no result
        exact absurd h (by simp)
    · -- the CNAME replacement policy
      split at h
      · exact Or.inl (insertBody_cleared _ record serial rfl s' b h)
      · exact absurd h (by simp)
    · -- every other record type
      exact insertBody_cases s record serial hu s' b h
  · exact absurd h (by simp)

/-- Branch analysis of `remove`'s body. -/
theorem removeBody_cases (s : RecordSet) (record : Record) (serial : Nat)
    (s' : RecordSet) (b : Bool)
    (h : removeBody s record serial = some (s', b)) :
    ((b = true ∧ s'.rrsigs = [] ∧ s'.serial = serial) ∨
      (b = false ∧ s' = s)) ∧ s'.records.Sublist s.records := by
  unfold removeBody at h
  refine ⟨?_, removeLoop_sublist serial _ s s' false b h⟩
  rcases removeLoop_cases serial _ s s' false b h with
    ⟨hf, hs', _⟩ | ⟨hf, h1, h2⟩
  · exact Or.inr ⟨hf, hs'⟩
  · exact Or.inl ⟨hf, h1, h2⟩

/-- Branch analysis of the full `remove`: a `true` result marks the set
updated, a `false` result changes nothing, and only stored records are
ever deleted. -/
theorem remove_cases (s : RecordSet) (record : Record) (serial : Nat)
    (s' : RecordSet) (b : Bool) (h : s.remove record serial = some (s', b)) :
    ((b = true ∧ s'.rrsigs = [] ∧ s'.serial = serial) ∨
      (b = false ∧ s' = s)) ∧ s'.records.Sublist s.records := by
  unfold RecordSet.remove at h
  split at h
  · split at h
    · -- NS floor
      split at h
      · injection h with h
        have hp := Prod.mk.injEq _ _ _ _ |>.mp h
        exact ⟨Or.inr ⟨hp.2.symm, hp.1.symm⟩, by rw [← hp.1]⟩
      · exact removeBody_cases s record serial s' b h
    · -- SOA: never removed
      injection h with h
      have hp := Prod.mk.injEq _ _ _ _ |>.mp h
      exact ⟨Or.inr ⟨hp.2.symm, hp.1.symm⟩, by rw [← hp.1]⟩
    · exact removeBody_cases s record serial s' b h
  · exact absurd h (by simp)

/-! ### The max-by-key selection -/

/-- The accumulator pass returns the accumulator or a list element. -/
theorem maxByKeyGo_mem (key : Record → Algorithm) (acc : Record)
    (l : List Record) : maxByKeyGo key acc l ∈ acc :: l := by
  induction l generalizing acc with
  | nil => exact List.mem_singleton.mpr rfl
  | cons x xs ih =>
    show maxByKeyGo key (if (key acc).rank ≤ (key x).rank then x else acc)
        xs ∈ acc :: x :: xs
    rcases List.mem_cons.mp (ih _) with h | h
    · rw [h]
      split
      · exact List.mem_cons_of_mem _ (List.mem_cons_self _ _)
      · exact List.mem_cons_self _ _
    · exact List.mem_cons_of_mem _ (List.mem_cons_of_mem _ h)

/-- The accumulator pass dominates the accumulator and every list element
in key rank. -/
theorem maxByKeyGo_ge (key : Record → Algorithm) (acc : Record)
    (l : List Record) :
    (key acc).rank ≤ (key (maxByKeyGo key acc l)).rank ∧
      ∀ x ∈ l, (key x).rank ≤ (key (maxByKeyGo key acc l)).rank := by
  induction l generalizing acc with
  | nil => exact ⟨Nat.le_refl _, by simp⟩
  | cons y ys ih =>
    show (key acc).rank ≤
        (key (maxByKeyGo key (if (key acc).rank ≤ (key y).rank then y
          else acc) ys)).rank ∧ _
    have hacc : (key acc).rank ≤
        (key (if (key acc).rank ≤ (key y).rank then y else acc)).rank := by
      split
      · next h => exact h
      · exact Nat.le_refl _
    have hy : (key y).rank ≤
        (key (if (key acc).rank ≤ (key y).rank then y else acc)).rank := by
      split
      · exact Nat.le_refl _
      · next h => omega
    rcases ih (if (key acc).rank ≤ (key y).rank then y else acc) with
      ⟨h1, h2⟩
    refine ⟨Nat.le_trans hacc h1, ?_⟩
    intro x hx
    rcases List.mem_cons.mp hx with rfl | hx
    · exact Nat.le_trans hy h1
    · exact h2 x hx

/-! ### The claims -/

/-- C2: every RecordSet reached from a fresh set (`new`, `with_ttl`, or
`from` a single record) by any sequence of panic-free `insert` and
`remove` calls stores no two records with equal rdata. -/
theorem reachable_sets_have_unique_rdata (s : RecordSet)
    (h : Reachable s) : uniqueRdata s.records := by
  induction h with
  | new name record_type serial => exact List.Pairwise.nil
  | with_ttl name record_type ttl => exact List.Pairwise.nil
  | from_record record => exact List.pairwise_singleton _ _
  | insert s record serial s' b _ hstep ih =>
    rcases insert_cases s record serial ih s' b hstep with
      ⟨_, _, _, hu⟩ | ⟨_, rfl⟩
    · exact hu
    · exact ih
  | remove s record serial s' b _ hstep ih =>
    exact List.Pairwise.sublist (remove_cases s record serial s' b hstep).2
      ih

/-- Witness for C2: a two-step reachable state (insert `aRecordB` into the
singleton set over `aRecordA`) satisfies the uniqueness invariant. -/
theorem reachable_sets_have_unique_rdata_witness :
    uniqueRdata witnessSetAB.records :=
  reachable_sets_have_unique_rdata witnessSetAB
    (Reachable.insert witnessSetA aRecordB 1 witnessSetAB true
      (Reachable.from_record aRecordA) (by decide))

/-- C5: on a set satisfying the uniqueness invariant, every `insert` or
`remove` returning `true` leaves `rrsigs` empty and `serial` equal to the
caller's argument, and every one returning `false` changes nothing at
all. -/
theorem mutation_serial_and_rrsig_discipline (s : RecordSet)
    (record : Record) (serial : Nat) (hu : uniqueRdata s.records) :
    (∀ s', s.insert record serial = some (s', true) →
      s'.rrsigs = [] ∧ s'.serial = serial) ∧
    (∀ s', s.insert record serial = some (s', false) → s' = s) ∧
    (∀ s', s.remove record serial = some (s', true) →
      s'.rrsigs = [] ∧ s'.serial = serial) ∧
    (∀ s', s.remove record serial = some (s', false) → s' = s) := by
  refine ⟨?_, ?_, ?_, ?_⟩
  · intro s' h
    rcases insert_cases s record serial hu s' true h with
      ⟨_, h1, h2, _⟩ | ⟨hb, _⟩
    · exact ⟨h1, h2⟩
    · exact absurd hb (by simp)
  · intro s' h
    rcases insert_cases s record serial hu s' false h with
      ⟨hb, _⟩ | ⟨_, hs⟩
    · exact absurd hb (by simp)
    · exact hs
  · intro s' h
    rcases (remove_cases s record serial s' true h).1 with
      ⟨_, h1, h2⟩ | ⟨hb, _⟩
    · exact ⟨h1, h2⟩
    · exact absurd hb (by simp)
  · intro s' h
    rcases (remove_cases s record serial s' false h).1 with
      ⟨hb, _⟩ | ⟨_, hs⟩
    · exact absurd hb (by simp)
    · exact hs

/-- Witness for C5, at the singleton A set and a fresh A record. -/
theorem mutation_serial_and_rrsig_discipline_witness :
    (∀ s', witnessSetA.insert aRecordB 1 = some (s', true) →
      s'.rrsigs = [] ∧ s'.serial = 1) ∧
    (∀ s', witnessSetA.insert aRecordB 1 = some (s', false) →
      s' = witnessSetA) ∧
    (∀ s', witnessSetA.remove aRecordB 1 = some (s', true) →
      s'.rrsigs = [] ∧ s'.serial = 1) ∧
    (∀ s', witnessSetA.remove aRecordB 1 = some (s', false) →
      s' = witnessSetA) :=
  mutation_serial_and_rrsig_discipline witnessSetA aRecordB 1
    (List.pairwise_singleton _ _)

/-- C1: on an SOA set storing exactly one SOA record, an insert whose SOA
rdata has serial-number ≤ the stored one's is rejected with no state
change, and an insert with a strictly greater serial-number succeeds and
replaces the stored record wholesale. -/
theorem soa_insert_serial_gate (s : RecordSet) (record r0 : Record)
    (ex nw : SOA) (serial : Nat)
    (hrec : s.records = [r0]) (hex : r0.rdata = RData.SOA ex)
    (hnew : record.rdata = RData.SOA nw)
    (hname : record.name = s.name) (htype : record.rr_type = RecordType.SOA)
    (hstype : s.record_type = RecordType.SOA) :
    (nw.serial ≤ ex.serial → s.insert record serial = some (s, false)) ∧
    (ex.serial < nw.serial →
      s.insert record serial =
        some ({ s with
                  records := [record],
                  ttl := record.ttl,
                  rrsigs := [],
                  serial := serial }, true)) := by
  have hguard : record.name = s.name ∧ record.rr_type = s.record_type :=
    ⟨hname, htype.trans hstype.symm⟩
  constructor
  · intro hle
    unfold RecordSet.insert
    rw [if_pos hguard, htype]
    show (if s.records.length ≤ 1 then _ else none) = _
    simp only [hrec, List.length_cons, List.length_nil, List.head?_cons,
      hex, hnew]
    rw [if_pos (by omega), if_pos hle]
  · intro hlt
    unfold RecordSet.insert
    rw [if_pos hguard, htype]
    show (if s.records.length ≤ 1 then _ else none) = _
    simp only [hrec, List.length_cons, List.length_nil, List.head?_cons,
      hex, hnew]
    rw [if_pos (by omega), if_neg (by omega),
      insertBody_no_match _ record serial (by simp)]
    rfl

/-- Witness for C1: the strictly-newer SOA replaces the stored one. -/
theorem soa_insert_serial_gate_witness :
    soaSet.insert soaRecNew 9 =
      some ({ soaSet with
                records := [soaRecNew],
                ttl := soaRecNew.ttl,
                rrsigs := [],
                serial := 9 }, true) :=
  (soa_insert_serial_gate soaSet soaRecNew soaRecOld soaOld soaNew 9
    rfl rfl rfl rfl rfl rfl).2 (by decide)

/-- C3 (amended): inserting a record fully equal to a stored one is a
strict no-op returning `false` for every record type except CNAME (whose
unconditional pre-clear makes the re-insert report `true`); for an SOA
set the stored slot must be the singleton with SOA-typed rdata, as the
code's asserts demand. -/
theorem duplicate_insert_noop (s : RecordSet) (record : Record)
    (serial : Nat) (hu : uniqueRdata s.records) (hmem : record ∈ s.records)
    (hname : record.name = s.name) (htype : record.rr_type = s.record_type)
    (hcname : s.record_type ≠ RecordType.CNAME)
    (hsoa : s.record_type = RecordType.SOA →
      s.records.length ≤ 1 ∧ ∃ x, record.rdata = RData.SOA x) :
    s.insert record serial = some (s, false) := by
  have hguard : record.name = s.name ∧ record.rr_type = s.record_type :=
    ⟨hname, htype⟩
  rcases unique_mem_split s.records record hu hmem with ⟨l₁, l₂, hs, h1, h3⟩
  cases hrt : record.rr_type
  case CNAME => exact absurd (htype.symm.trans hrt) hcname
  case SOA =>
    rcases hsoa (htype.symm.trans hrt) with ⟨hlen, x, hx⟩
    have hl : l₁ = [] ∧ l₂ = [] := by
      rw [hs] at hlen
      simp only [List.length_append, List.length_cons] at hlen
      constructor <;>
        [exact List.length_eq_zero.mp (by omega);
         exact List.length_eq_zero.mp (by omega)]
    rw [hl.1, hl.2] at hs
    unfold RecordSet.insert
    rw [if_pos hguard, hrt]
    show (if s.records.length ≤ 1 then _ else none) = _
    simp only [hs, List.nil_append, List.length_cons, List.length_nil,
      List.head?_cons, hx]
    rw [if_pos (by omega), if_pos (Nat.le_refl _)]
  all_goals
    unfold RecordSet.insert
    rw [if_pos hguard, hrt]
    exact insertBody_dup s record serial l₁ l₂ hs h1 h3

/-- Witness for C3: re-inserting the stored A record is rejected with no
change. -/
theorem duplicate_insert_noop_witness :
    witnessSetA.insert aRecordA 4 = some (witnessSetA, false) :=
  duplicate_insert_noop witnessSetA aRecordA 4
    (List.pairwise_singleton _ _) (by decide) rfl rfl (by decide)
    (fun hst => absurd hst (by decide))

/-- Counterexample to C3 as stated: for a CNAME set, inserting a record
fully equal to the stored one returns `true`, not `false` (the pre-clear
plus append reports a change even though the record list is unchanged). -/
theorem duplicate_cname_insert_returns_true :
    cnameRecord ∈ cnameSet.records ∧
      cnameSet.insert cnameRecord 0 = some (cnameSet, true) := by decide

/-- C4: inserting into a CNAME set always clears the stored records first,
so the set afterwards holds exactly the new record, whatever rdata the
previous occupant had. -/
theorem cname_insert_singleton (s : RecordSet) (record : Record)
    (serial : Nat) (hname : record.name = s.name)
    (htype : record.rr_type = RecordType.CNAME)
    (hstype : s.record_type = RecordType.CNAME)
    (hlen : s.records.length ≤ 1) :
    s.insert record serial =
      some ({ s with
                records := [record],
                ttl := record.ttl,
                rrsigs := [],
                serial := serial }, true) := by
  unfold RecordSet.insert
  rw [if_pos ⟨hname, htype.trans hstype.symm⟩, htype]
  show (if s.records.length ≤ 1 then
      insertBody { s with records := [] } record serial else none) = _
  rw [if_pos hlen, insertBody_no_match _ record serial (by simp)]
  rfl

/-- Witness for C4: a CNAME record with different target rdata replaces
the stored one. -/
theorem cname_insert_singleton_witness :
    cnameSet.insert cnameRecord2 3 =
      some ({ cnameSet with
                records := [cnameRecord2],
                ttl := cnameRecord2.ttl,
                rrsigs := [],
                serial := 3 }, true) :=
  cname_insert_singleton cnameSet cnameRecord2 3 rfl rfl rfl (by decide)

/-- C6: on an NS set, removing with an NS-typed record is refused when at
most one record remains; with two stored NS records, removing a matching
one succeeds and a subsequent NS-typed removal of the survivor is
refused. -/
theorem ns_remove_floor (s : RecordSet) (record : Record) (serial : Nat)
    (hstype : s.record_type = RecordType.NS) :
    (∀ r : Record, r.name = s.name → r.rr_type = RecordType.NS →
      s.records.length ≤ 1 → s.remove r serial = some (s, false)) ∧
    (∀ a b : Record, s.records = [a, b] → record.name = s.name →
      record.rr_type = RecordType.NS → record.rdata = a.rdata →
      b.rdata ≠ a.rdata →
      s.remove record serial =
        some ({ s with records := [b], rrsigs := [], serial := serial },
          true) ∧
      ∀ (r2 : Record) (n2 : Nat), r2.name = s.name →
        r2.rr_type = RecordType.NS →
        RecordSet.remove
            { s with records := [b], rrsigs := [], serial := serial } r2
            n2 =
          some ({ s with records := [b], rrsigs := [], serial := serial },
            false)) := by
  constructor
  · intro r hn ht hlen
    unfold RecordSet.remove
    rw [if_pos ⟨hn, Or.inl (ht.trans hstype.symm)⟩, ht]
    show (if s.records.length ≤ 1 then some (s, false)
      else removeBody s r serial) = _
    rw [if_pos hlen]
  · intro a b hrec hn ht hrd hne
    constructor
    · unfold RecordSet.remove
      rw [if_pos ⟨hn, Or.inl (ht.trans hstype.symm)⟩, ht]
      show (if s.records.length ≤ 1 then some (s, false)
        else removeBody s record serial) = _
      rw [if_neg (by rw [hrec]; simp),
        removeBody_match s record serial [] a [b] (by rw [hrec]; rfl)
          hrd.symm (by simp)
          (by
            intro r hr
            rw [List.mem_singleton.mp hr, hrd]
            exact hne)]
      rfl
    · intro r2 n2 hn2 ht2
      unfold RecordSet.remove
      rw [if_pos ⟨hn2, Or.inl (ht2.trans hstype.symm)⟩, ht2]
      show (if ({ s with
              records := [b], rrsigs := [],
              serial := serial } : RecordSet).records.length ≤ 1 then _
        else _) = _
      rw [if_pos (by simp)]

/-- Witness for C6: deleting one of two stored NS records succeeds. -/
theorem ns_remove_floor_witness :
    nsSet2.remove nsRecord1 2 =
      some ({ nsSet2 with
                records := [nsRecord2], rrsigs := [], serial := 2 },
        true) :=
  ((ns_remove_floor nsSet2 nsRecord1 2 rfl).2 nsRecord1 nsRecord2 rfl rfl
    rfl rfl (by decide)).1

/-- C7: removing with an SOA-typed record always returns `false` and
leaves the set entirely unchanged. -/
theorem soa_remove_always_refused (s : RecordSet) (record : Record)
    (serial : Nat) (hname : record.name = s.name)
    (htype : record.rr_type = RecordType.SOA)
    (hstype : s.record_type = RecordType.SOA) :
    s.remove record serial = some (s, false) := by
  unfold RecordSet.remove
  rw [if_pos ⟨hname, Or.inl (htype.trans hstype.symm)⟩, htype]

/-- Witness for C7: the stored SOA record cannot be removed. -/
theorem soa_remove_always_refused_witness :
    soaSet.remove soaRecOld 3 = some (soaSet, false) :=
  soa_remove_always_refused soaSet soaRecOld 3 rfl rfl rfl

/-- C10: the SOA and last-NS protections key on the argument record's
type, not the set's: an ANY-typed removal request with matching rdata
deletes the stored record and returns `true` whatever the set's type —
including an SOA set, or an NS set down to its final record. -/
theorem any_remove_bypasses_type_guards (s : RecordSet) (record a : Record)
    (serial : Nat) (hname : record.name = s.name)
    (htype : record.rr_type = RecordType.ANY) (hrec : s.records = [a])
    (hrd : record.rdata = a.rdata) :
    s.remove record serial =
      some ({ s with records := [], rrsigs := [], serial := serial },
        true) := by
  unfold RecordSet.remove
  rw [if_pos ⟨hname, Or.inr htype⟩, htype]
  show removeBody s record serial = _
  rw [removeBody_match s record serial [] a [] (by rw [hrec]; rfl)
    hrd.symm (by simp) (by simp)]
  rfl

/-- Witness for C10: an ANY-typed request deletes the sole stored SOA
record of an SOA set. -/
theorem any_remove_bypasses_type_guards_witness :
    soaSet.remove anyRecord 7 =
      some ({ soaSet with records := [], rrsigs := [], serial := 7 },
        true) :=
  any_remove_bypasses_type_guards soaSet anyRecord soaRecOld 7 rfl rfl rfl
    rfl

/-- C8: `get_records false` returns exactly the stored records in order;
`get_records true` appends, after the stored records, at most one rrsig —
a supported-algorithm rrsig of maximal algorithm rank — and appends
nothing when no rrsig's algorithm is supported. -/
theorem get_records_signature_selection (s : RecordSet)
    (algs : SupportedAlgorithms) :
    (s.get_records false algs = s.records) ∧
    (s.rrsigs.filter (supportedSig algs) = [] →
      s.get_records true algs = s.records) ∧
    (∀ r₀ rest, s.rrsigs.filter (supportedSig algs) = r₀ :: rest →
      ∃ m, m ∈ s.rrsigs.filter (supportedSig algs) ∧
        s.get_records true algs = s.records ++ [m] ∧
        ∀ r ∈ s.rrsigs.filter (supportedSig algs),
          (sigKey r).rank ≤ (sigKey m).rank) := by
  refine ⟨rfl, ?_, ?_⟩
  · intro hf
    simp [RecordSet.get_records, hf, max_by_key]
  · intro r₀ rest hf
    refine ⟨maxByKeyGo sigKey r₀ rest, ?_, ?_, ?_⟩
    · rw [hf]
      exact maxByKeyGo_mem sigKey r₀ rest
    · simp [RecordSet.get_records, hf, max_by_key]
    · intro r hr
      rw [hf] at hr
      rcases List.mem_cons.mp hr with heq | hr
      · rw [heq]
        exact (maxByKeyGo_ge sigKey r₀ rest).1
      · exact (maxByKeyGo_ge sigKey r₀ rest).2 r hr

/-- Witness for C8, at an A set carrying RSASHA256- and
ECDSAP384SHA384-algorithm rrsigs. -/
theorem get_records_signature_selection_witness :
    (signedSet.get_records false [Algorithm.RSASHA256] =
      signedSet.records) ∧
    (signedSet.rrsigs.filter (supportedSig [Algorithm.RSASHA256]) = [] →
      signedSet.get_records true [Algorithm.RSASHA256] =
        signedSet.records) ∧
    (∀ r₀ rest,
      signedSet.rrsigs.filter (supportedSig [Algorithm.RSASHA256]) =
        r₀ :: rest →
      ∃ m, m ∈ signedSet.rrsigs.filter
            (supportedSig [Algorithm.RSASHA256]) ∧
        signedSet.get_records true [Algorithm.RSASHA256] =
          signedSet.records ++ [m] ∧
        ∀ r ∈ signedSet.rrsigs.filter (supportedSig [Algorithm.RSASHA256]),
          (sigKey r).rank ≤ (sigKey m).rank) :=
  get_records_signature_selection signedSet [Algorithm.RSASHA256]

/-- C9 (amended): whenever `new_record` returns — rather than panicking —
the returned record is stored in the set and carries the requested rdata.
This covers successful inserts and full-duplicate rejections; but for an
SOA set holding an SOA with serial-number ≥ the new rdata's and different
rdata, the rejected insert leaves no matching record and `new_record`
panics (`none`) instead of returning. -/
theorem new_record_returns_stored_rdata (s : RecordSet) (rdata : RData)
    (s' : RecordSet) (r : Record)
    (h : s.new_record rdata = some (s', r)) :
    r ∈ s'.records ∧ r.rdata = rdata := by
  unfold RecordSet.new_record at h
  split at h
  · split at h
    · exact absurd h (by simp)
    · split at h
      · exact absurd h (by simp)
      · next r1 hfind =>
        injection h with h
        have hp := Prod.mk.injEq _ _ _ _ |>.mp h
        rw [← hp.1, ← hp.2]
        refine ⟨List.mem_of_find?_eq_some hfind, ?_⟩
        have := List.find?_some hfind
        simpa using this
  · exact absurd h (by simp)

/-- Witness for C9: a duplicate `new_record` call on the singleton A set
is rejected by `insert` yet still returns the stored record. -/
theorem new_record_returns_stored_rdata_witness :
    aRecordA ∈ witnessSetA.records ∧ aRecordA.rdata = RData.A 24 :=
  new_record_returns_stored_rdata witnessSetA (RData.A 24) witnessSetA
    aRecordA (by decide)

/-- Counterexample to C9 as stated: on the SOA set whose stored SOA has
serial-number 5, `new_record` with an SOA rdata of serial-number 3 and a
different primary name hits the rejected insert, finds no stored record
with the requested rdata, and panics (`none`) — it does not return a
reference at all. -/
theorem new_record_stale_soa_panics :
    soaSet.new_record (RData.SOA soaStale) = none := by decide
